import Mathlib

set_option maxHeartbeats 1000000

/-!
Shallow embedding of the investment-report generator backend
(main.py, main_simple.py, report_store.py, chatbot.py).

Text is modeled as lists of characters (ASCII scope); Python float scores
are modeled by integers, since none of the verified properties depend on
division or rounding; database effects are modeled as explicit state values.
-/

/-- Python str.startswith over character lists. -/
def startsWithL : List Char → List Char → Bool
  | [], _ => true
  | _ :: _, [] => false
  | a :: ns, b :: bs => (a == b) && startsWithL ns bs

/-- Python substring membership (needle in hay) over character lists. -/
def hasSubL (needle : List Char) : List Char → Bool
  | [] => startsWithL needle []
  | c :: t => startsWithL needle (c :: t) || hasSubL needle t

/-- Character list of a string literal. -/
def strL (s : String) : List Char := s.toList

/-- Python substring test with a string needle. -/
def subIn (needle : String) (hay : List Char) : Bool := hasSubL (strL needle) hay

/-- ASCII model of Python str.lower applied to one character. -/
def lowerChar (c : Char) : Char :=
  if 65 ≤ c.toNat ∧ c.toNat ≤ 90 then Char.ofNat (c.toNat + 32) else c

/-- ASCII model of Python str.lower. -/
def lowerL (l : List Char) : List Char := l.map lowerChar

/-- Failure classification of a provider error message (spec section 4.1). -/
inductive FailureClass where
  | NETWORK
  | RATE_LIMITED
  | FATAL
deriving DecidableEq

/-- Network-failure markers from main.py lines 190-196. -/
def TEAM_NETWORK_KEYWORDS : List String :=
  ["getaddrinfo failed", "connection refused", "failed to establish",
   "network is unreachable", "timed out"]

/-- Retryable markers from main.py line 201. -/
def TEAM_RETRYABLE_KEYWORDS : List String :=
  ["429", "resource_exhausted", "503", "unavailable", "rate limit"]

/-- The network_error test of main.py lines 188-197. -/
def teamNetworkError (msg : String) : Bool :=
  TEAM_NETWORK_KEYWORDS.any (fun keyword => subIn keyword (lowerL (strL msg)))

/-- The retryable_error test of main.py lines 199-202. -/
def teamRetryableError (msg : String) : Bool :=
  TEAM_RETRYABLE_KEYWORDS.any (fun keyword => subIn keyword (lowerL (strL msg)))

/-- Classification implicit in the branch order of main.py lines 204-222:
network is tested first, then retryable, anything else is fatal. -/
def classify_team (msg : String) : FailureClass :=
  if teamNetworkError msg then .NETWORK
  else if teamRetryableError msg then .RATE_LIMITED
  else .FATAL

/-- Outcome of one failed attempt inside a retry loop. The sleepRetry
constructor models time.sleep followed by the next attempt; the raise
constructors model the three distinct terminal raise statements. -/
inductive RunAction where
  | sleepRetry (seconds : Nat)
  | raiseNetworkError
  | raiseUnavailableError
  | raiseOriginal
deriving DecidableEq

/-- Body of the except ModelProviderError handler of main.py lines 184-222,
for a 1-based attempt number as in the Python for loop. -/
def teamStep (msg : String) (attempt maxAttempts baseDelay : Nat) : RunAction :=
  if teamNetworkError msg then
    if attempt == maxAttempts then .raiseNetworkError
    else .sleepRetry 30
  else if teamRetryableError msg && decide (attempt < maxAttempts) then
    .sleepRetry (baseDelay * 2 ^ (attempt - 1))
  else .raiseOriginal

/-- The is_network_error test of main_simple.py lines 120-127. The last three
disjuncts compare needles containing capital letters against a lowercased
message, exactly as written in the source. -/
def simpleNetworkError (msg : String) : Bool :=
  subIn "getaddrinfo failed" (strL msg) ||
  subIn "11001" (strL msg) ||
  subIn "ConnectError" (strL msg) ||
  subIn "Connection refused" (lowerL (strL msg)) ||
  subIn "Network is unreachable" (lowerL (strL msg)) ||
  subIn "Failed to establish" (lowerL (strL msg))

/-- The is_retryable test of main_simple.py lines 130-137. -/
def simpleRetryableError (msg : String) : Bool :=
  subIn "429" (strL msg) ||
  subIn "RESOURCE_EXHAUSTED" (strL msg) ||
  subIn "503" (strL msg) ||
  subIn "Service Unavailable" (strL msg) ||
  subIn "UNAVAILABLE" (strL msg) ||
  subIn "overloaded" (lowerL (strL msg))

/-- Classification implicit in the branch order of main_simple.py
lines 139-194. -/
def classify_simple (msg : String) : FailureClass :=
  if simpleNetworkError msg then .NETWORK
  else if simpleRetryableError msg then .RATE_LIMITED
  else .FATAL

/-- Body of the except handler of main_simple.py lines 116-194, for a 0-based
attempt number (the Python loop runs attempt over range(max_retries)). -/
def simpleStep (msg : String) (attempt maxRetries retryDelay : Nat) : RunAction :=
  if simpleNetworkError msg then
    if decide (attempt < maxRetries - 1) then .sleepRetry 30
    else .raiseNetworkError
  else if simpleRetryableError msg then
    if decide (attempt < maxRetries - 1) then .sleepRetry (retryDelay * 2 ^ attempt)
    else .raiseUnavailableError
  else .raiseOriginal

/-- Rate-limit markers exactly as listed in claim C1. -/
def CLAIM_RL_MARKERS : List String := ["429", "resource_exhausted", "503", "rate limit"]

/-- Network markers named by claim C1, concretized to the marker strings the
code uses. -/
def CLAIM_NETWORK_MARKERS : List String :=
  ["getaddrinfo failed", "connection refused", "failed to establish",
   "network is unreachable", "timed out"]

/-- Classifier written from the words of claim C1: the four rate-limit markers
are decisive first, then network markers, everything else fatal, all matched
case-insensitively. -/
def claimClassifier (msg : String) : FailureClass :=
  if CLAIM_RL_MARKERS.any (fun m => subIn m (lowerL (strL msg))) then .RATE_LIMITED
  else if CLAIM_NETWORK_MARKERS.any (fun m => subIn m (lowerL (strL msg))) then .NETWORK
  else .FATAL

/-- Amended classifier for the team pipeline: network markers take priority,
and unavailable is an additional rate-limit marker. -/
def classifyTeamSpec (msg : String) : FailureClass :=
  if TEAM_NETWORK_KEYWORDS.any (fun m => subIn m (lowerL (strL msg))) then .NETWORK
  else if TEAM_RETRYABLE_KEYWORDS.any (fun m => subIn m (lowerL (strL msg))) then .RATE_LIMITED
  else .FATAL

/-- Amended classifier for the simple pipeline, keeping only the markers that
can actually fire: the three capitalized network needles compared against a
lowercased message never match and are omitted. -/
def classifySimpleSpec (msg : String) : FailureClass :=
  if (["getaddrinfo failed", "11001", "ConnectError"] : List String).any
      (fun m => subIn m (strL msg)) then .NETWORK
  else if (["429", "RESOURCE_EXHAUSTED", "503", "Service Unavailable",
      "UNAVAILABLE"] : List String).any (fun m => subIn m (strL msg)) ||
      subIn "overloaded" (lowerL (strL msg)) then .RATE_LIMITED
  else .FATAL

/-- Coordination marker phrases from main.py lines 115-123. -/
def COORDINATION_KEYPHRASES : List String :=
  ["i will delegate", "delegate this task", "has completed", "handover",
   "i have reviewed", "as requested", "workflow"]

/-- Marker test of main.py lines 129-130. -/
def containsCoordMarker (report : List Char) : Bool :=
  COORDINATION_KEYPHRASES.any (fun marker => subIn marker (lowerL report))

/-- Whitespace set stripped by Python str.strip and str.lstrip (ASCII scope). -/
def isPyWS (c : Char) : Bool :=
  c == ' ' || c == '\t' || c == '\n' || c == '\r' ||
  c == Char.ofNat 11 || c == Char.ofNat 12

/-- Heading test applied to one line by the loop of main.py lines 135-149.
All four break conditions set the same index, so per line they collapse to
one disjunction in source order. -/
def lineMatchesHeading (line : List Char) : Bool :=
  startsWithL (strL "## executive summary") (lowerL (line.dropWhile isPyWS)) ||
  startsWithL (strL "# executive summary") (lowerL (line.dropWhile isPyWS)) ||
  startsWithL (strL "## investment") (lowerL (line.dropWhile isPyWS)) ||
  startsWithL (strL "# investment") (lowerL (line.dropWhile isPyWS)) ||
  startsWithL (strL "## overview") (lowerL (line.dropWhile isPyWS)) ||
  startsWithL (strL "# overview") (lowerL (line.dropWhile isPyWS)) ||
  startsWithL (strL "# ") (line.dropWhile isPyWS) ||
  startsWithL (strL "## ") (line.dropWhile isPyWS)

/-- Index computation of the loop of main.py lines 134-149: start_index is 0
initially and becomes the enumeration index of the first line passing the
heading test, after which the loop breaks. -/
def findHead : Nat → List (List Char) → Nat
  | _, [] => 0
  | idx, line :: rest => if lineMatchesHeading line then idx else findHead (idx + 1) rest

/-- Position of the first heading line as an option, used to state the
amended claim C7. -/
def headingIdx? : List (List Char) → Option Nat
  | [] => none
  | line :: rest =>
    if lineMatchesHeading line then some 0 else (headingIdx? rest).map (· + 1)

/-- Worker for the newline splitter, accumulating the current line reversed. -/
def splitlinesGo : List Char → List Char → List (List Char)
  | acc, [] => if acc.isEmpty then [] else [acc.reverse]
  | acc, c :: rest =>
    if c == '\n' then acc.reverse :: splitlinesGo [] rest
    else splitlinesGo (c :: acc) rest

/-- Python str.splitlines restricted to the newline separator: a trailing
newline does not produce a final empty line. -/
def splitlines (l : List Char) : List (List Char) := splitlinesGo [] l

/-- Python newline join over lines. -/
def joinNL : List (List Char) → List Char
  | [] => []
  | [l] => l
  | l :: l2 :: ls => l ++ '\n' :: joinNL (l2 :: ls)

/-- The _strip_coordination_messages function of main.py lines 126-151,
written with the final-index expression inlined. When start_index stays 0
(heading on the first line, or no heading found) the original report is
returned unchanged. -/
def strip_coordination_messages (report : List Char) : List Char :=
  if containsCoordMarker report then
    if findHead 0 (splitlines report) == 0 then report
    else joinNL ((splitlines report).drop (findHead 0 (splitlines report)))
  else report

/-- Newline-to-space replacement used by the chunker and summariser. -/
def replNL (l : List Char) : List Char := l.map (fun c => if c == '\n' then ' ' else c)

/-- Python str.strip over character lists. -/
def trimL (l : List Char) : List Char :=
  ((l.dropWhile isPyWS).reverse.dropWhile isPyWS).reverse

/-- Python negative-index slice buffer[-overlap:] as used in report_store.py
line 99. With overlap 0 the slice is the whole buffer, as in Python. -/
def pyTailSlice (l : List Char) (k : Nat) : List Char :=
  if k == 0 then l else l.drop (l.length - k)

/-- Worker for the paragraph split on a double-newline separator. -/
def splitParasGo : List Char → List Char → List (List Char)
  | acc, [] => [acc.reverse]
  | acc, [c] => [(c :: acc).reverse]
  | acc, c :: d :: rest =>
    if c == '\n' && d == '\n' then acc.reverse :: splitParasGo [] rest
    else splitParasGo (c :: acc) (d :: rest)

/-- Python markdown.split with two newlines as separator. -/
def splitParas (l : List Char) : List (List Char) := splitParasGo [] l

/-- Cleaned paragraph list of report_store.py line 81: stripped paragraphs
with empty ones removed. -/
def cleanedParas (markdown : List Char) : List (List Char) :=
  ((splitParas markdown).map trimL).filter (fun p => !p.isEmpty)

/-- One iteration of the chunk-packing loop of report_store.py lines 88-103,
transforming the state (chunks, buffer). -/
def chunkStep (maxChars overlap : Nat) (st : List (List Char) × List Char)
    (para : List Char) : List (List Char) × List Char :=
  let paragraph := trimL (replNL para)
  if paragraph.isEmpty then st
  else if st.2.length + paragraph.length + 1 ≤ maxChars then
    (st.1, trimL (st.2 ++ ' ' :: paragraph))
  else if st.2.isEmpty then
    (st.1, trimL (' ' :: paragraph))
  else
    (st.1 ++ [st.2], trimL (trimL (pyTailSlice st.2 overlap) ++ ' ' :: paragraph))

/-- The _chunk_markdown function of report_store.py lines 80-108. -/
def chunk_markdown (markdown : List Char) (maxChars overlap : Nat) : List (List Char) :=
  let cleaned := cleanedParas markdown
  if cleaned.isEmpty then []
  else
    let st := cleaned.foldl (chunkStep maxChars overlap) ([], [])
    st.1 ++ (if st.2.isEmpty then [] else [st.2])

/-- Largest cleaned paragraph length of a document, used in the amended
claim C4 bound. -/
def paraMaxLen (markdown : List Char) : Nat :=
  ((cleanedParas markdown).map List.length).foldr Nat.max 0

/-- Stored row of the report_chunks table. A none embedding models a stored
value that json.loads fails to decode, which search skips. -/
structure ChunkRow where
  report_id : String
  chunk_index : Nat
  content : List Char
  embedding : Option (List Int)
deriving DecidableEq

/-- Scored search result as assembled in report_store.py lines 253-261. -/
structure ScoredChunk where
  report_id : String
  chunk_index : Nat
  content : List Char
  score : Int
deriving DecidableEq

/-- Query argument of search_report_chunks: a numpy array together with its
shape. A one-dimensional vector has a singleton shape list. -/
structure NDArr where
  shape : List Nat
  data : List Int
deriving DecidableEq

/-- Python exception value raised by the embedded store functions. -/
inductive PyError where
  | valueError
deriving DecidableEq

/-- Dot product of the query with a stored vector. -/
def dotL (a b : List Int) : Int := (List.zipWith (· * ·) a b).sum

/-- Row selection of report_store.py lines 224-240: a non-empty report_id
restricts the rows; None or the empty string select every row, following the
Python truthiness test of the optional filter. -/
def rowsFor (rows : List ChunkRow) (report_id : Option String) : List ChunkRow :=
  match report_id with
  | some r => if r.isEmpty then rows else rows.filter (fun row => row.report_id == r)
  | none => rows

/-- Scoring loop of report_store.py lines 245-261: undecodable embeddings and
shape mismatches are skipped, every kept row is scored by the dot product
with the query. -/
def scoreRows (rows : List ChunkRow) (q : List Int) : List ScoredChunk :=
  rows.filterMap (fun row =>
    match row.embedding with
    | none => none
    | some e =>
      if e.length = q.length then
        some ⟨row.report_id, row.chunk_index, row.content, dotL q e⟩
      else none)

/-- Stable insertion of one scored chunk into a descending list: an incoming
element goes before the first element whose score is less than or equal to
its own. Since the incoming element always precedes the list elements in the
original order, this preserves the original order among equal scores, exactly
like the stable Python list.sort with reverse set. -/
def insertDesc (x : ScoredChunk) : List ScoredChunk → List ScoredChunk
  | [] => [x]
  | y :: ys => if y.score ≤ x.score then x :: y :: ys else y :: insertDesc x ys

/-- Stable descending sort by score, report_store.py line 263. -/
def sortDesc (l : List ScoredChunk) : List ScoredChunk := l.foldr insertDesc []

/-- The search_report_chunks function of report_store.py lines 213-264. The
dimension check precedes every read of the store. -/
def search_report_chunks (rows : List ChunkRow) (query_embedding : NDArr)
    (report_id : Option String) (top_k : Nat) : Except PyError (List ScoredChunk) :=
  if query_embedding.shape.length ≠ 1 then .error .valueError
  else
    let sel := rowsFor rows report_id
    if sel.isEmpty then .ok []
    else .ok ((sortDesc (scoreRows sel query_embedding.data)).take top_k)

/-- Worker for Python str.split with no separator: whitespace runs separate
words and empty pieces are dropped. -/
def splitWSGo : List Char → List Char → List (List Char)
  | cur, [] => if cur.isEmpty then [] else [cur.reverse]
  | cur, c :: rest =>
    if isPyWS c then
      if cur.isEmpty then splitWSGo [] rest else cur.reverse :: splitWSGo [] rest
    else splitWSGo (c :: cur) rest

/-- Python str.split with no separator. -/
def splitWS (l : List Char) : List (List Char) := splitWSGo [] l

/-- Python single-space join over words. -/
def joinSP : List (List Char) → List Char
  | [] => []
  | [w] => w
  | w :: w2 :: ws => w ++ ' ' :: joinSP (w2 :: ws)

/-- The _summarise_markdown function of report_store.py lines 66-77,
returning the summary and preview fields. The trailing marker appended to a
long preview is the three characters that appear in the source file. -/
def summarise_markdown (markdown : List Char) : List Char × List Char :=
  let text := trimL markdown
  if text.isEmpty then ([], [])
  else
    ((text.takeWhile (fun c => !(c == '\n'))).take 160,
      (joinSP (splitWS (replNL text))).take 400 ++
        (if 400 < (joinSP (splitWS (replNL text))).length
          then strL "â€¦" else []))

/-- Stored row of the reports table, in the column order of the INSERT of
report_store.py lines 135-153. -/
structure ReportRow where
  id : String
  ticker : String
  company_name : Option String
  mode : String
  created_at : String
  summary : List Char
  preview : List Char
  report_markdown : List Char
  markdown_path : Option String
  pdf_path : Option String
deriving DecidableEq

/-- Database state: the two tables of report_store.py. -/
structure DBState where
  reports : List ReportRow
  report_chunks : List ChunkRow
deriving DecidableEq

/-- The save_report_record function of report_store.py lines 111-182. The
embedder argument models embed_texts and returns none when it raises; the
generated uuid and timestamp enter as explicit arguments. Chunk rows are
inserted only when the embedding step succeeded as a whole, with 1-based
indices from enumerate. -/
def save_report_record (db : DBState)
    (embedder : List (List Char) → Option (List (List Int)))
    (report_id created_at ticker : String) (company_name : Option String)
    (mode : String) (report_markdown : List Char)
    (markdown_path pdf_path : Option String) : DBState × ReportRow :=
  let si := summarise_markdown report_markdown
  let chunks := chunk_markdown report_markdown 1100 150
  let chunk_embeddings := if chunks.isEmpty then none else embedder chunks
  let record : ReportRow :=
    ⟨report_id, ticker, company_name, mode, created_at, si.1, si.2,
      report_markdown, markdown_path, pdf_path⟩
  let newChunks :=
    match chunk_embeddings with
    | none => []
    | some embs =>
      (List.zip chunks embs).enum.map
        (fun p => ⟨report_id, p.1 + 1, p.2.1, some p.2.2⟩)
  (⟨db.reports ++ [record], db.report_chunks ++ newChunks⟩, record)

/-- Prompt excerpt dictionary assembled in chatbot.py lines 68-77. -/
structure Excerpt where
  content : List Char
  score : Int
  reportId : String
  chunkIndex : Nat
deriving DecidableEq

/-- Decimal digits of a natural number. -/
def natChars (n : Nat) : List Char := (toString n).toList

/-- Separator join used by build_prompt. -/
def joinWith (sep : List Char) : List (List Char) → List Char
  | [] => []
  | [l] => l
  | l :: l2 :: ls => l ++ sep ++ joinWith sep (l2 :: ls)

/-- The build_prompt function of chatbot.py lines 34-48. -/
def build_prompt (question : List Char) (excerpts : List Excerpt) : List Char :=
  strL "You are assisting an investor by answering questions grounded in the following investment reports.\n\nContext:\n" ++
  joinWith (strL "\n\n")
    (excerpts.enum.map (fun p =>
      strL "[Excerpt " ++ natChars (p.1 + 1) ++ strL "]\n" ++ p.2.content)) ++
  strL "\n\nFollow the instructions carefully:\n- Only use information found in the excerpts.\n- Mention the excerpt references you draw from.\n- If the excerpts lack the answer, acknowledge the gap.\n\nInvestor question: " ++
  question ++ strL "\n"

/-- Result of answer_question. The generationInvoked flag is instrumentation
recording whether the chat agent was called at all. -/
structure ChatResult where
  reply : List Char
  sourceChunks : List Excerpt
  generationInvoked : Bool
deriving DecidableEq

/-- Fixed insufficient-information reply of chatbot.py line 64, with the
three-character sequence exactly as it appears in the source file. -/
def NO_INFO_REPLY : List Char :=
  strL "I couldnâ€™t locate relevant information in the stored reports for that question."

/-- The answer_question function of chatbot.py lines 51-86. The embedText
argument models embed_text (a one-dimensional query vector) and the agent
argument models chat_agent.run composed with content extraction. -/
def answer_question (rows : List ChunkRow) (embedText : List Char → List Int)
    (agent : List Char → List Char) (question : List Char)
    (report_id : Option String) (top_k : Nat) : Except PyError ChatResult :=
  match search_report_chunks rows ⟨[(embedText question).length], embedText question⟩
      report_id top_k with
  | .error e => .error e
  | .ok found =>
    if found.isEmpty then .ok ⟨NO_INFO_REPLY, [], false⟩
    else
      .ok ⟨trimL (agent (build_prompt question
          (found.map (fun m => ⟨m.content, m.score, m.report_id, m.chunk_index⟩)))),
        found.map (fun m => ⟨m.content, m.score, m.report_id, m.chunk_index⟩), true⟩

lemma lowerChar_toNat_not_upper (c : Char) :
    (lowerChar c).toNat < 65 ∨ 90 < (lowerChar c).toNat := by
  unfold lowerChar
  split
  · rename_i h
    have hv : (c.toNat + 32).isValidChar := Or.inl (by omega)
    have ht : (Char.ofNat (c.toNat + 32)).toNat = c.toNat + 32 := by
      rw [Char.ofNat, dif_pos hv]; exact rfl
    rw [ht]
    omega
  · rename_i h
    omega

lemma hasSubL_upper_head (c : Char) (needle : List Char)
    (hc : 65 ≤ c.toNat ∧ c.toNat ≤ 90) :
    ∀ s : List Char, hasSubL (c :: needle) (lowerL s) = false := by
  intro s
  induction s with
  | nil => rfl
  | cons x t ih =>
    have hne : (c == lowerChar x) = false := by
      apply beq_eq_false_iff_ne.mpr
      intro he
      rcases lowerChar_toNat_not_upper x with h1 | h1 <;> rw [← he] at h1 <;> omega
    have hstep : lowerL (x :: t) = lowerChar x :: lowerL t := rfl
    rw [hstep, hasSubL, ih]
    simp [startsWithL, hne]

lemma dead_connection_refused (s : List Char) :
    subIn "Connection refused" (lowerL s) = false := by
  have h : strL "Connection refused" = 'C' :: strL "onnection refused" := rfl
  rw [subIn, h]
  exact hasSubL_upper_head 'C' _ (by decide) s

lemma dead_network_unreachable (s : List Char) :
    subIn "Network is unreachable" (lowerL s) = false := by
  have h : strL "Network is unreachable" = 'N' :: strL "etwork is unreachable" := rfl
  rw [subIn, h]
  exact hasSubL_upper_head 'N' _ (by decide) s

lemma dead_failed_establish (s : List Char) :
    subIn "Failed to establish" (lowerL s) = false := by
  have h : strL "Failed to establish" = 'F' :: strL "ailed to establish" := rfl
  rw [subIn, h]
  exact hasSubL_upper_head 'F' _ (by decide) s

lemma simpleNetworkError_eq (msg : String) :
    simpleNetworkError msg =
      (subIn "getaddrinfo failed" (strL msg) || subIn "11001" (strL msg) ||
        subIn "ConnectError" (strL msg)) := by
  unfold simpleNetworkError
  rw [dead_connection_refused, dead_network_unreachable, dead_failed_establish]
  simp

lemma classify_team_network {msg : String} (h : classify_team msg = .NETWORK) :
    teamNetworkError msg = true := by
  by_cases hn : teamNetworkError msg = true
  · exact hn
  · by_cases hr : teamRetryableError msg = true <;>
      simp [classify_team, hn, hr] at h

lemma classify_team_rl {msg : String} (h : classify_team msg = .RATE_LIMITED) :
    teamNetworkError msg = false ∧ teamRetryableError msg = true := by
  by_cases hn : teamNetworkError msg = true
  · simp [classify_team, hn] at h
  · by_cases hr : teamRetryableError msg = true
    · exact ⟨by simpa using hn, hr⟩
    · simp [classify_team, hn, hr] at h

lemma classify_simple_network {msg : String} (h : classify_simple msg = .NETWORK) :
    simpleNetworkError msg = true := by
  by_cases hn : simpleNetworkError msg = true
  · exact hn
  · by_cases hr : simpleRetryableError msg = true <;>
      simp [classify_simple, hn, hr] at h

lemma classify_simple_rl {msg : String} (h : classify_simple msg = .RATE_LIMITED) :
    simpleNetworkError msg = false ∧ simpleRetryableError msg = true := by
  by_cases hn : simpleNetworkError msg = true
  · simp [classify_simple, hn] at h
  · by_cases hr : simpleRetryableError msg = true
    · exact ⟨by simpa using hn, hr⟩
    · simp [classify_simple, hn, hr] at h

/-- Claim C1, counterexample. The claim states that exactly the four markers
429, resource_exhausted, 503 and rate limit (any case) give RATE_LIMITED,
network markers give NETWORK, and everything else is FATAL. The code instead
treats unavailable as retryable, gives network markers priority over
rate-limit markers, and in the simple pipeline does not recognize rate limit
at all. -/
theorem claim_c1_counterexample :
    (claimClassifier "unavailable" = .FATAL ∧
      classify_team "unavailable" = .RATE_LIMITED) ∧
    (claimClassifier "429: connection refused" = .RATE_LIMITED ∧
      classify_team "429: connection refused" = .NETWORK) ∧
    (claimClassifier "rate limit" = .RATE_LIMITED ∧
      classify_simple "rate limit" = .FATAL) := by
  decide

/-- Claim C1, amended. Both classifiers are deterministic pure functions of
the message text, with network markers tested first: the team pipeline
matches its markers case-insensitively with unavailable as an extra
rate-limit marker; the simple pipeline matches getaddrinfo failed, 11001 and
ConnectError case-sensitively for NETWORK (its three capitalized needles
compared against a lowercased message never fire), and 429,
RESOURCE_EXHAUSTED, 503, Service Unavailable, UNAVAILABLE case-sensitively
plus overloaded case-insensitively for RATE_LIMITED; rate limit is not a
marker there. -/
theorem claim_c1_amended (msg : String) :
    classify_team msg = classifyTeamSpec msg ∧
    classify_simple msg = classifySimpleSpec msg := by
  refine ⟨rfl, ?_⟩
  have hn : simpleNetworkError msg =
      (["getaddrinfo failed", "11001", "ConnectError"] : List String).any
        (fun m => subIn m (strL msg)) := by
    rw [simpleNetworkError_eq]
    simp only [List.any_cons, List.any_nil, Bool.or_false, Bool.or_assoc]
  have hr : simpleRetryableError msg =
      ((["429", "RESOURCE_EXHAUSTED", "503", "Service Unavailable",
        "UNAVAILABLE"] : List String).any (fun m => subIn m (strL msg)) ||
        subIn "overloaded" (lowerL (strL msg))) := by
    unfold simpleRetryableError
    simp only [List.any_cons, List.any_nil, Bool.or_false, Bool.or_assoc]
  unfold classify_simple classifySimpleSpec
  rw [hn, hr]

/-- Claim C2. For a 1-based attempt number n below the attempt cap, a failure
classified RATE_LIMITED waits exactly base_delay times 2 to the power n - 1,
and a failure classified NETWORK waits the constant 30 seconds, in both
pipelines (the simple pipeline counts attempts from 0). -/
theorem claim_c2_backoff (msg : String) (n maxAttempts baseDelay : Nat)
    (h1 : 1 ≤ n) (h2 : n < maxAttempts) :
    (classify_team msg = .RATE_LIMITED →
      teamStep msg n maxAttempts baseDelay = .sleepRetry (baseDelay * 2 ^ (n - 1))) ∧
    (classify_team msg = .NETWORK →
      teamStep msg n maxAttempts baseDelay = .sleepRetry 30) ∧
    (classify_simple msg = .RATE_LIMITED →
      simpleStep msg (n - 1) maxAttempts baseDelay = .sleepRetry (baseDelay * 2 ^ (n - 1))) ∧
    (classify_simple msg = .NETWORK →
      simpleStep msg (n - 1) maxAttempts baseDelay = .sleepRetry 30) := by
  have hlt : n - 1 < maxAttempts - 1 := by omega
  refine ⟨?_, ?_, ?_, ?_⟩
  · intro h
    obtain ⟨hna, hra⟩ := classify_team_rl h
    simp [teamStep, hna, hra, h2]
  · intro h
    have hna := classify_team_network h
    have hne : (n == maxAttempts) = false := by
      rw [beq_eq_false_iff_ne]; omega
    simp [teamStep, hna, hne]
  · intro h
    obtain ⟨hna, hra⟩ := classify_simple_rl h
    simp [simpleStep, hna, hra, hlt]
  · intro h
    have hna := classify_simple_network h
    simp [simpleStep, hna, hlt]

/-- Witness for claim C2 at concrete inputs, using the caps of the source
(max three attempts, base delay 60). -/
theorem claim_c2_backoff_witness :
    teamStep "429" 1 3 60 = .sleepRetry 60 ∧
    teamStep "timed out" 1 3 60 = .sleepRetry 30 ∧
    simpleStep "429" 0 3 60 = .sleepRetry 60 ∧
    simpleStep "getaddrinfo failed" 0 3 60 = .sleepRetry 30 :=
  ⟨(claim_c2_backoff "429" 1 3 60 (by decide) (by decide)).1 (by decide),
   (claim_c2_backoff "timed out" 1 3 60 (by decide) (by decide)).2.1 (by decide),
   (claim_c2_backoff "429" 1 3 60 (by decide) (by decide)).2.2.1 (by decide),
   (claim_c2_backoff "getaddrinfo failed" 1 3 60 (by decide) (by decide)).2.2.2 (by decide)⟩

/-- Claim C3, counterexample. On the final allowed attempt the team pipeline
handles a RATE_LIMITED failure by falling through to the bare raise statement,
re-raising the original provider exception instead of a provider-unavailable
error (main.py line 222, with the source cap 3 and base delay 60). -/
theorem claim_c3_counterexample :
    classify_team "429" = .RATE_LIMITED ∧
    teamStep "429" 3 3 60 = .raiseOriginal := by
  decide

/-- Claim C3, amended. On retry exhaustion the simple pipeline terminates with
a classification-specific error in both cases, and the team pipeline does so
for NETWORK failures only: its RATE_LIMITED exhaustion re-raises the original
provider exception. -/
theorem claim_c3_amended (msg : String) (maxAttempts baseDelay : Nat) :
    (classify_team msg = .NETWORK →
      teamStep msg maxAttempts maxAttempts baseDelay = .raiseNetworkError) ∧
    (classify_team msg = .RATE_LIMITED →
      teamStep msg maxAttempts maxAttempts baseDelay = .raiseOriginal) ∧
    (classify_simple msg = .NETWORK →
      simpleStep msg (maxAttempts - 1) maxAttempts baseDelay = .raiseNetworkError) ∧
    (classify_simple msg = .RATE_LIMITED →
      simpleStep msg (maxAttempts - 1) maxAttempts baseDelay = .raiseUnavailableError) := by
  have hlt : ¬ (maxAttempts - 1 < maxAttempts - 1) := by omega
  refine ⟨?_, ?_, ?_, ?_⟩
  · intro h
    have hna := classify_team_network h
    simp [teamStep, hna]
  · intro h
    obtain ⟨hna, hra⟩ := classify_team_rl h
    simp [teamStep, hna, hra]
  · intro h
    have hna := classify_simple_network h
    simp [simpleStep, hna, hlt]
  · intro h
    obtain ⟨hna, hra⟩ := classify_simple_rl h
    simp [simpleStep, hna, hra, hlt]

/-- Witness for the amended claim C3 at concrete inputs. -/
theorem claim_c3_amended_witness :
    teamStep "timed out" 3 3 60 = .raiseNetworkError ∧
    teamStep "503" 3 3 60 = .raiseOriginal ∧
    simpleStep "ConnectError" 2 3 60 = .raiseNetworkError ∧
    simpleStep "RESOURCE_EXHAUSTED" 2 3 60 = .raiseUnavailableError :=
  ⟨(claim_c3_amended "timed out" 3 60).1 (by decide),
   (claim_c3_amended "503" 3 60).2.1 (by decide),
   (claim_c3_amended "ConnectError" 3 60).2.2.1 (by decide),
   (claim_c3_amended "RESOURCE_EXHAUSTED" 3 60).2.2.2 (by decide)⟩

lemma findHead_none : ∀ (L : List (List Char)), headingIdx? L = none →
    ∀ a : Nat, findHead a L = 0 := by
  intro L
  induction L with
  | nil => intro _ a; rfl
  | cons line rest ih =>
    intro h a
    have hm : lineMatchesHeading line = false := by
      by_cases hm : lineMatchesHeading line = true
      · simp [headingIdx?, hm] at h
      · simpa using hm
    have hr : headingIdx? rest = none := by
      rw [headingIdx?, if_neg (by simp [hm])] at h
      cases hh : headingIdx? rest
      · rfl
      · rw [hh] at h; simp at h
    rw [findHead, if_neg (by simp [hm])]
    exact ih hr (a + 1)

lemma findHead_some : ∀ (L : List (List Char)) (j : Nat), headingIdx? L = some j →
    ∀ a : Nat, findHead a L = a + j := by
  intro L
  induction L with
  | nil => intro j h a; simp [headingIdx?] at h
  | cons line rest ih =>
    intro j h a
    by_cases hm : lineMatchesHeading line = true
    · rw [headingIdx?, if_pos (by simp [hm])] at h
      have hj : j = 0 := by simpa using h.symm
      subst hj
      simp [findHead, hm]
    · have hmf : lineMatchesHeading line = false := by simpa using hm
      rw [headingIdx?, if_neg (by simp [hmf])] at h
      cases hh : headingIdx? rest with
      | none => rw [hh] at h; simp at h
      | some k =>
        rw [hh] at h
        simp only [Option.map_some'] at h
        have hj : j = k + 1 := by simpa using h.symm
        subst hj
        rw [findHead, if_neg (by simp [hmf]), ih k hh (a + 1)]
        omega

lemma headingIdx_some_get : ∀ (L : List (List Char)) (j : Nat), headingIdx? L = some j →
    ∃ hl, L[j]? = some hl ∧ lineMatchesHeading hl = true := by
  intro L
  induction L with
  | nil => intro j h; simp [headingIdx?] at h
  | cons line rest ih =>
    intro j h
    by_cases hm : lineMatchesHeading line = true
    · rw [headingIdx?, if_pos (by simp [hm])] at h
      have hj : j = 0 := by simpa using h.symm
      subst hj
      exact ⟨line, by simp, hm⟩
    · have hmf : lineMatchesHeading line = false := by simpa using hm
      rw [headingIdx?, if_neg (by simp [hmf])] at h
      cases hh : headingIdx? rest with
      | none => rw [hh] at h; simp at h
      | some k =>
        rw [hh] at h
        simp only [Option.map_some'] at h
        have hj : j = k + 1 := by simpa using h.symm
        subst hj
        obtain ⟨hl, hget, hmat⟩ := ih k hh
        exact ⟨hl, by simpa using hget, hmat⟩

lemma splitlinesGo_no_nl : ∀ (s acc : List Char), '\n' ∉ acc →
    ∀ l ∈ splitlinesGo acc s, '\n' ∉ l := by
  intro s
  induction s with
  | nil =>
    intro acc hacc l hl
    by_cases he : acc.isEmpty = true
    · simp [splitlinesGo, he] at hl
    · rw [splitlinesGo, if_neg (by simp [he])] at hl
      have : l = acc.reverse := by simpa using hl
      rw [this]
      intro hmem
      exact hacc (List.mem_reverse.mp hmem)
  | cons c rest ih =>
    intro acc hacc l hl
    by_cases hc : c = '\n'
    · subst hc
      rw [splitlinesGo, if_pos (by simp)] at hl
      rcases List.mem_cons.mp hl with h1 | h1
      · rw [h1]
        intro hmem
        exact hacc (List.mem_reverse.mp hmem)
      · exact ih [] (by simp) l h1
    · rw [splitlinesGo, if_neg (by simp [hc])] at hl
      refine ih (c :: acc) ?_ l hl
      intro hmem
      rcases List.mem_cons.mp hmem with h1 | h1
      · exact hc h1.symm
      · exact hacc h1

lemma splitlines_no_nl (s : List Char) (l : List Char) (h : l ∈ splitlines s) :
    '\n' ∉ l :=
  splitlinesGo_no_nl s [] (by simp) l h

lemma splitlinesGo_mid : ∀ (hd : List Char), '\n' ∉ hd → ∀ (acc z : List Char),
    splitlinesGo acc (hd ++ '\n' :: z) = (acc.reverse ++ hd) :: splitlinesGo [] z := by
  intro hd
  induction hd with
  | nil =>
    intro _ acc z
    rw [List.nil_append, splitlinesGo, if_pos (by simp)]
    simp
  | cons c t ih =>
    intro h acc z
    have hc : (c == '\n') = false := by
      have hcne : c ≠ '\n' := fun he => h (by rw [he]; exact List.mem_cons_self _ _)
      simpa using hcne
    have ht : '\n' ∉ t := fun hm => h (List.mem_cons_of_mem _ hm)
    rw [List.cons_append, splitlinesGo, if_neg (by simp [hc]), ih ht (c :: acc) z]
    simp

lemma splitlinesGo_last : ∀ (hd : List Char), '\n' ∉ hd → ∀ (acc : List Char),
    splitlinesGo acc hd =
      if (acc.reverse ++ hd).isEmpty then [] else [acc.reverse ++ hd] := by
  intro hd
  induction hd with
  | nil =>
    intro _ acc
    rw [splitlinesGo]
    simp
  | cons c t ih =>
    intro h acc
    have hc : (c == '\n') = false := by
      have hcne : c ≠ '\n' := fun he => h (by rw [he]; exact List.mem_cons_self _ _)
      simpa using hcne
    have ht : '\n' ∉ t := fun hm => h (List.mem_cons_of_mem _ hm)
    rw [splitlinesGo, if_neg (by simp [hc]), ih ht (c :: acc)]
    simp

lemma splitlines_joinNL_cons (hd : List Char) (rest : List (List Char))
    (hnl : '\n' ∉ hd) (hne : hd ≠ []) :
    ∃ tl, splitlines (joinNL (hd :: rest)) = hd :: tl := by
  cases rest with
  | nil =>
    refine ⟨[], ?_⟩
    rw [joinNL, splitlines, splitlinesGo_last hd hnl []]
    simp [hne]
  | cons r rs =>
    refine ⟨splitlinesGo [] (joinNL (r :: rs)), ?_⟩
    rw [joinNL, splitlines, splitlinesGo_mid hd hnl [] (joinNL (r :: rs))]
    simp

/-- Claim C7, counterexample. The input contains the coordination marker
workflow and contains a line literally reading Executive Summary, yet the
stripper returns the text from the earlier generic heading line onward, not
from the Executive Summary line: the loop breaks at the first line matching
any heading form. -/
theorem claim_c7_counterexample :
    strip_coordination_messages
        (strL "workflow\n## Intro\n## Executive Summary\nbody") =
      strL "## Intro\n## Executive Summary\nbody" ∧
    strL "## Intro\n## Executive Summary\nbody" ≠
      strL "## Executive Summary\nbody" := by
  decide

/-- Claim C7, amended. For input containing a coordination marker the
stripper returns the text from the first line matching any recognized
heading form onward; the priority order between heading forms applies only
within a single line, never across lines. If that first heading line is the
first line of the text, or no line matches, the input is returned
unchanged. -/
theorem claim_c7_amended (s : List Char) (h : containsCoordMarker s = true) :
    strip_coordination_messages s =
      match headingIdx? (splitlines s) with
      | none => s
      | some 0 => s
      | some (j + 1) => joinNL ((splitlines s).drop (j + 1)) := by
  unfold strip_coordination_messages
  rw [if_pos h]
  cases hi : headingIdx? (splitlines s) with
  | none => rw [findHead_none _ hi 0]; simp
  | some j =>
    cases j with
    | zero => rw [findHead_some _ _ hi 0]; simp
    | succ k => rw [findHead_some _ _ hi 0]; simp

/-- Witness for the amended claim C7 at a concrete input whose first heading
line is an Overview heading on the third line. -/
theorem claim_c7_amended_witness :
    strip_coordination_messages (strL "workflow\nintro\n## Overview\nbody") =
      strL "## Overview\nbody" := by
  rw [claim_c7_amended (strL "workflow\nintro\n## Overview\nbody") (by decide)]
  decide

/-- Claim C9. The stripper is idempotent: stripping a stripped text changes
nothing, because a stripped text either equals the original or starts with a
heading line, and a leading heading line pins start_index to 0. -/
theorem claim_c9_idempotent (s : List Char) :
    strip_coordination_messages (strip_coordination_messages s) =
      strip_coordination_messages s := by
  by_cases hm : containsCoordMarker s = true
  · cases hi : headingIdx? (splitlines s) with
    | none =>
      have hfix : strip_coordination_messages s = s := by
        unfold strip_coordination_messages
        rw [if_pos hm, findHead_none _ hi 0]
        simp
      rw [hfix]
      exact hfix
    | some j =>
      cases j with
      | zero =>
        have hfix : strip_coordination_messages s = s := by
          unfold strip_coordination_messages
          rw [if_pos hm, findHead_some _ _ hi 0]
          simp
        rw [hfix]
        exact hfix
      | succ k =>
        obtain ⟨hl, hget, hmat⟩ := headingIdx_some_get _ _ hi
        obtain ⟨hjlt, hgetel⟩ := List.getElem?_eq_some.mp hget
        have hdrop : (splitlines s).drop (k + 1) = hl :: (splitlines s).drop (k + 2) := by
          rw [List.drop_eq_getElem_cons hjlt, hgetel]
        have hnl : '\n' ∉ hl := splitlines_no_nl s hl (List.getElem?_mem hget)
        have hne : hl ≠ [] := by
          intro he
          rw [he] at hmat
          exact absurd hmat (by decide)
        have hstrip : strip_coordination_messages s =
            joinNL (hl :: (splitlines s).drop (k + 2)) := by
          unfold strip_coordination_messages
          rw [if_pos hm, findHead_some _ _ hi 0, ← hdrop]
          simp
        obtain ⟨tl, htl⟩ :=
          splitlines_joinNL_cons hl ((splitlines s).drop (k + 2)) hnl hne
        rw [hstrip]
        by_cases hm2 : containsCoordMarker (joinNL (hl :: (splitlines s).drop (k + 2))) = true
        · unfold strip_coordination_messages
          rw [if_pos hm2, htl]
          simp [findHead, hmat]
        · unfold strip_coordination_messages
          rw [if_neg hm2]
  · have hfix : strip_coordination_messages s = s := by
      unfold strip_coordination_messages
      rw [if_neg hm]
    rw [hfix]
    exact hfix

lemma le_foldr_max (l : List Nat) (x : Nat) (h : x ∈ l) : x ≤ l.foldr Nat.max 0 := by
  induction l with
  | nil => simp at h
  | cons a t ih =>
    rcases List.mem_cons.mp h with h1 | h1
    · subst h1
      exact Nat.le_max_left _ _
    · exact le_trans (ih h1) (Nat.le_max_right _ _)

lemma trimL_length_le (l : List Char) : (trimL l).length ≤ l.length := by
  unfold trimL
  calc ((l.dropWhile isPyWS).reverse.dropWhile isPyWS).reverse.length
      = ((l.dropWhile isPyWS).reverse.dropWhile isPyWS).length := by simp
    _ ≤ (l.dropWhile isPyWS).reverse.length := (List.dropWhile_sublist _).length_le
    _ = (l.dropWhile isPyWS).length := by simp
    _ ≤ l.length := (List.dropWhile_sublist _).length_le

lemma pyTailSlice_length_le (l : List Char) (k : Nat) (hk : 0 < k) :
    (pyTailSlice l k).length ≤ k := by
  unfold pyTailSlice
  have hne : ¬ ((k == 0) = true) := by simp; omega
  rw [if_neg hne, List.length_drop]
  omega

lemma chunkStep_preserves (maxChars overlap P : Nat) (hov : 0 < overlap)
    (st : List (List Char) × List Char) (p : List Char)
    (hp : p.length ≤ P)
    (h1 : ∀ c ∈ st.1, c.length ≤ Nat.max maxChars (overlap + 1 + P))
    (h2 : st.2.length ≤ Nat.max maxChars (overlap + 1 + P)) :
    (∀ c ∈ (chunkStep maxChars overlap st p).1,
        c.length ≤ Nat.max maxChars (overlap + 1 + P)) ∧
    (chunkStep maxChars overlap st p).2.length ≤ Nat.max maxChars (overlap + 1 + P) := by
  have hpara : (trimL (replNL p)).length ≤ P := by
    calc (trimL (replNL p)).length ≤ (replNL p).length := trimL_length_le _
      _ = p.length := by simp [replNL]
      _ ≤ P := hp
  unfold chunkStep
  simp only []
  by_cases he : (trimL (replNL p)).isEmpty = true
  · rw [if_pos he]
    exact ⟨h1, h2⟩
  · rw [if_neg he]
    by_cases hfit : st.2.length + (trimL (replNL p)).length + 1 ≤ maxChars
    · rw [if_pos hfit]
      refine ⟨h1, ?_⟩
      have hlen : (st.2 ++ ' ' :: trimL (replNL p)).length =
          st.2.length + (trimL (replNL p)).length + 1 := by
        simp only [List.length_append, List.length_cons]
        omega
      calc (trimL (st.2 ++ ' ' :: trimL (replNL p))).length
          ≤ (st.2 ++ ' ' :: trimL (replNL p)).length := trimL_length_le _
        _ ≤ maxChars := by omega
        _ ≤ Nat.max maxChars (overlap + 1 + P) := Nat.le_max_left _ _
    · rw [if_neg hfit]
      by_cases hbe : st.2.isEmpty = true
      · rw [if_pos hbe]
        refine ⟨h1, ?_⟩
        calc (trimL (' ' :: trimL (replNL p))).length
            ≤ (' ' :: trimL (replNL p)).length := trimL_length_le _
          _ = (trimL (replNL p)).length + 1 := by simp
          _ ≤ overlap + 1 + P := by omega
          _ ≤ Nat.max maxChars (overlap + 1 + P) := Nat.le_max_right _ _
      · rw [if_neg hbe]
        constructor
        · intro c hc
          rcases List.mem_append.mp hc with hin | hin
          · exact h1 c hin
          · have hcs : c = st.2 := by simpa using hin
            rw [hcs]
            exact h2
        · have htail : (trimL (pyTailSlice st.2 overlap)).length ≤ overlap :=
            le_trans (trimL_length_le _) (pyTailSlice_length_le st.2 overlap hov)
          calc (trimL (trimL (pyTailSlice st.2 overlap) ++ ' ' :: trimL (replNL p))).length
              ≤ (trimL (pyTailSlice st.2 overlap) ++ ' ' :: trimL (replNL p)).length :=
                trimL_length_le _
            _ = (trimL (pyTailSlice st.2 overlap)).length + ((trimL (replNL p)).length + 1) := by
                simp only [List.length_append, List.length_cons]
            _ ≤ overlap + 1 + P := by omega
            _ ≤ Nat.max maxChars (overlap + 1 + P) := Nat.le_max_right _ _

lemma chunkFold_bound (maxChars overlap P : Nat) (hov : 0 < overlap) :
    ∀ (paras : List (List Char)) (st : List (List Char) × List Char),
      (∀ p ∈ paras, p.length ≤ P) →
      (∀ c ∈ st.1, c.length ≤ Nat.max maxChars (overlap + 1 + P)) →
      st.2.length ≤ Nat.max maxChars (overlap + 1 + P) →
      (∀ c ∈ (paras.foldl (chunkStep maxChars overlap) st).1,
          c.length ≤ Nat.max maxChars (overlap + 1 + P)) ∧
      (paras.foldl (chunkStep maxChars overlap) st).2.length ≤
        Nat.max maxChars (overlap + 1 + P) := by
  intro paras
  induction paras with
  | nil => intro st _ h1 h2; exact ⟨h1, h2⟩
  | cons p ps ih =>
    intro st hp h1 h2
    rw [List.foldl_cons]
    have hstep := chunkStep_preserves maxChars overlap P hov st p
      (hp p (List.mem_cons_self _ _)) h1 h2
    exact ih (chunkStep maxChars overlap st p)
      (fun q hq => hp q (List.mem_cons_of_mem _ hq)) hstep.1 hstep.2

/-- Claim C4, counterexample. With max_chars 10 and overlap 5, the document
made of paragraphs of lengths 8, 8 and 2 produces the chunk aaaaa bbbbbbbb of
length 14: it exceeds max_chars although it is not a single source paragraph
and no source paragraph exceeds max_chars. The overlap tail prefixed to a
paragraph that did not fit pushes a chunk past the bound. -/
theorem claim_c4_counterexample :
    strL "aaaaa bbbbbbbb" ∈ chunk_markdown (strL "aaaaaaaa\n\nbbbbbbbb\n\ncc") 10 5 ∧
    (strL "aaaaa bbbbbbbb").length = 14 ∧
    (∀ p ∈ cleanedParas (strL "aaaaaaaa\n\nbbbbbbbb\n\ncc"), p.length ≤ 10) := by
  decide

/-- Claim C4, amended. For positive overlap, every chunk length is bounded by
the larger of max_chars and overlap + 1 + the longest cleaned paragraph
length: a chunk may exceed max_chars by up to overlap + 1 even when no single
paragraph does, because a closing chunk is the overlap tail joined to the
paragraph that did not fit; paragraphs are never truncated. -/
theorem claim_c4_amended (markdown : List Char) (maxChars overlap : Nat)
    (hov : 0 < overlap) :
    ∀ c ∈ chunk_markdown markdown maxChars overlap,
      c.length ≤ Nat.max maxChars (overlap + 1 + paraMaxLen markdown) := by
  intro c hc
  by_cases hemp : (cleanedParas markdown).isEmpty = true
  · simp [chunk_markdown, hemp] at hc
  · have hfold := chunkFold_bound maxChars overlap (paraMaxLen markdown) hov
      (cleanedParas markdown) ([], [])
      (fun p hp => le_foldr_max _ _ (List.mem_map_of_mem List.length hp))
      (by intro x hx; simp at hx) (by simp)
    simp only [chunk_markdown, hemp, Bool.false_eq_true, if_false] at hc
    rcases List.mem_append.mp hc with hin | hin
    · exact hfold.1 c hin
    · by_cases hb : ((cleanedParas markdown).foldl (chunkStep maxChars overlap) ([], [])).2.isEmpty = true
      · rw [if_pos hb] at hin
        simp at hin
      · rw [if_neg hb] at hin
        have hcs : c = ((cleanedParas markdown).foldl (chunkStep maxChars overlap) ([], [])).2 := by
          simpa using hin
        rw [hcs]
        exact hfold.2

/-- Witness for the amended claim C4 at the concrete counterexample input. -/
theorem claim_c4_amended_witness :
    (0 : Nat) < 5 ∧
    ∀ c ∈ chunk_markdown (strL "aaaaaaaa\n\nbbbbbbbb\n\ncc") 10 5,
      c.length ≤ Nat.max 10 (5 + 1 + paraMaxLen (strL "aaaaaaaa\n\nbbbbbbbb\n\ncc")) :=
  ⟨by decide, claim_c4_amended (strL "aaaaaaaa\n\nbbbbbbbb\n\ncc") 10 5 (by decide)⟩

lemma mem_insertDesc {x z : ScoredChunk} :
    ∀ {l : List ScoredChunk}, z ∈ insertDesc x l → z = x ∨ z ∈ l := by
  intro l
  induction l with
  | nil =>
    intro h
    simp [insertDesc] at h
    exact Or.inl h
  | cons y ys ih =>
    intro h
    by_cases hc : y.score ≤ x.score
    · rw [insertDesc, if_pos hc] at h
      rcases List.mem_cons.mp h with h1 | h1
      · exact Or.inl h1
      · exact Or.inr h1
    · rw [insertDesc, if_neg hc] at h
      rcases List.mem_cons.mp h with h1 | h1
      · exact Or.inr (by rw [h1]; exact List.mem_cons_self _ _)
      · rcases ih h1 with h2 | h2
        · exact Or.inl h2
        · exact Or.inr (List.mem_cons_of_mem _ h2)

lemma mem_sortDesc {z : ScoredChunk} :
    ∀ {l : List ScoredChunk}, z ∈ sortDesc l → z ∈ l := by
  intro l
  induction l with
  | nil => intro h; simpa [sortDesc] using h
  | cons x xs ih =>
    intro h
    have hs : sortDesc (x :: xs) = insertDesc x (sortDesc xs) := rfl
    rw [hs] at h
    rcases mem_insertDesc h with h1 | h1
    · rw [h1]; exact List.mem_cons_self _ _
    · exact List.mem_cons_of_mem _ (ih h1)

lemma pairwise_insertDesc (x : ScoredChunk) (l : List ScoredChunk)
    (h : List.Pairwise (fun a b => b.score ≤ a.score) l) :
    List.Pairwise (fun a b => b.score ≤ a.score) (insertDesc x l) := by
  induction l with
  | nil => simp [insertDesc]
  | cons y ys ih =>
    obtain ⟨hy, hys⟩ := List.pairwise_cons.mp h
    by_cases hc : y.score ≤ x.score
    · rw [insertDesc, if_pos hc]
      refine List.pairwise_cons.mpr ⟨?_, h⟩
      intro z hz
      rcases List.mem_cons.mp hz with h1 | h1
      · rw [h1]; exact hc
      · exact le_trans (hy z h1) hc
    · rw [insertDesc, if_neg hc]
      have hxy : x.score ≤ y.score := le_of_not_le hc
      refine List.pairwise_cons.mpr ⟨?_, ih hys⟩
      intro z hz
      rcases mem_insertDesc hz with h1 | h1
      · rw [h1]; exact hxy
      · exact hy z h1

lemma pairwise_sortDesc (l : List ScoredChunk) :
    List.Pairwise (fun a b => b.score ≤ a.score) (sortDesc l) := by
  induction l with
  | nil => simp [sortDesc]
  | cons x xs ih => exact pairwise_insertDesc x (sortDesc xs) ih

lemma filter_insertDesc (v : Int) (x : ScoredChunk) :
    ∀ (l : List ScoredChunk),
      (insertDesc x l).filter (fun r => r.score == v) =
        (if x.score == v then [x] else []) ++ l.filter (fun r => r.score == v) := by
  intro l
  induction l with
  | nil =>
    by_cases hx : (x.score == v) = true <;> simp [insertDesc, List.filter, hx]
  | cons y ys ih =>
    by_cases hc : y.score ≤ x.score
    · rw [insertDesc, if_pos hc]
      by_cases hx : (x.score == v) = true <;> simp [List.filter_cons, hx]
    · rw [insertDesc, if_neg hc]
      rw [List.filter_cons, List.filter_cons, ih]
      by_cases hy : (y.score == v) = true
      · have hxv : (x.score == v) = false := by
          have h1 : x.score < y.score := lt_of_not_le hc
          have h2 : y.score = v := by simpa using hy
          rw [beq_eq_false_iff_ne]
          omega
        simp [hy, hxv]
      · simp [hy]

lemma filter_sortDesc (v : Int) : ∀ (l : List ScoredChunk),
    (sortDesc l).filter (fun r => r.score == v) = l.filter (fun r => r.score == v) := by
  intro l
  induction l with
  | nil => rfl
  | cons x xs ih =>
    have hs : sortDesc (x :: xs) = insertDesc x (sortDesc xs) := rfl
    rw [hs, filter_insertDesc, ih, List.filter_cons]
    by_cases hx : (x.score == v) = true <;> simp [hx]

lemma scoreRows_mem {rows : List ChunkRow} {q : List Int} {it : ScoredChunk}
    (h : it ∈ scoreRows rows q) :
    ∃ row ∈ rows, ∃ e, row.embedding = some e ∧ e.length = q.length ∧
      it = ⟨row.report_id, row.chunk_index, row.content, dotL q e⟩ := by
  obtain ⟨row, hrow, hf⟩ := List.mem_filterMap.mp h
  cases he : row.embedding with
  | none => rw [he] at hf; simp at hf
  | some e =>
    rw [he] at hf
    have hf2 : (if e.length = q.length then
        some (⟨row.report_id, row.chunk_index, row.content, dotL q e⟩ : ScoredChunk)
      else none) = some it := hf
    by_cases hl : e.length = q.length
    · rw [if_pos hl] at hf2
      exact ⟨row, hrow, e, he, hl, (Option.some.inj hf2).symm⟩
    · rw [if_neg hl] at hf2
      simp at hf2

lemma rowsFor_sub {rows : List ChunkRow} {rid : Option String} :
    ∀ row ∈ rowsFor rows rid, row ∈ rows := by
  intro row h
  cases rid with
  | none => exact h
  | some r =>
    by_cases hr : r.isEmpty = true
    · simpa [rowsFor, hr] using h
    · have h2 : row ∈ rows.filter (fun row => row.report_id == r) := by
        simpa [rowsFor, hr] using h
      exact (List.mem_filter.mp h2).1

lemma rowsFor_rid {rows : List ChunkRow} {r : String} (hr : r.isEmpty = false) :
    ∀ row ∈ rowsFor rows (some r), row.report_id = r := by
  intro row h
  have h2 : row ∈ rows.filter (fun row => row.report_id == r) := by
    simpa [rowsFor, hr] using h
  have h3 := (List.mem_filter.mp h2).2
  simpa using h3

lemma rowsFor_nil (rid : Option String) : rowsFor [] rid = [] := by
  cases rid with
  | none => rfl
  | some r =>
    by_cases hr : r.isEmpty = true <;> simp [rowsFor, hr]

/-- Claim C5, counterexample. The claim promises restriction to one report
whenever a report_id is given, but giving the empty string as report_id is
falsy in Python, so the WHERE clause is skipped and a chunk belonging to a
different report is returned. -/
theorem claim_c5_counterexample :
    search_report_chunks [⟨"r1", 1, strL "alpha", some [1]⟩] ⟨[1], [1]⟩ (some "") 5 =
      .ok [⟨"r1", 1, strL "alpha", 1⟩] ∧
    ("r1" : String) ≠ "" := by
  constructor
  · rfl
  · decide

/-- Claim C5, amended. For a one-dimensional query and a report filter that
is either absent or a non-empty identifier when relied upon: search succeeds,
returns at most top_k results, sorted by non-increasing dot-product score,
every result coming from a stored row with matching dimensionality (rows
with undecodable or mismatched vectors are skipped, without error) and
matching the non-empty report filter; equal scores keep their original row
order (stability stated as a filter identity); and an empty chunk table gives
the empty result. -/
theorem claim_c5_amended (rows : List ChunkRow) (q : List Int)
    (report_id : Option String) (top_k : Nat) (hk : 1 ≤ top_k) :
    ∃ res, search_report_chunks rows ⟨[q.length], q⟩ report_id top_k = .ok res ∧
      res.length ≤ top_k ∧
      List.Pairwise (fun a b => b.score ≤ a.score) res ∧
      (∀ it ∈ res, ∃ row ∈ rows, ∃ e, row.embedding = some e ∧
        e.length = q.length ∧ it.score = dotL q e ∧ it.content = row.content ∧
        it.report_id = row.report_id ∧ it.chunk_index = row.chunk_index ∧
        (∀ r, report_id = some r → r.isEmpty = false → row.report_id = r)) ∧
      (∀ v : Int,
        (sortDesc (scoreRows (rowsFor rows report_id) q)).filter
            (fun it => it.score == v) =
          (scoreRows (rowsFor rows report_id) q).filter (fun it => it.score == v)) ∧
      (rows = [] → res = []) := by
  unfold search_report_chunks
  rw [if_neg (by simp)]
  by_cases hemp : (rowsFor rows report_id).isEmpty = true
  · simp only [hemp, if_true]
    refine ⟨[], rfl, by simp, by simp, by simp, ?_, by simp⟩
    intro v
    have hnil : rowsFor rows report_id = [] := by simpa using hemp
    rw [hnil]
    rfl
  · simp only [hemp, if_false]
    refine ⟨_, rfl, ?_, ?_, ?_, ?_, ?_⟩
    · rw [List.length_take]
      exact Nat.min_le_left _ _
    · exact (pairwise_sortDesc _).sublist (List.take_sublist _ _)
    · intro it hit
      have h1 : it ∈ sortDesc (scoreRows (rowsFor rows report_id) q) :=
        (List.take_sublist _ _).subset hit
      have h2 : it ∈ scoreRows (rowsFor rows report_id) q := mem_sortDesc h1
      obtain ⟨row, hrow, e, he, hlen, hit_eq⟩ := scoreRows_mem h2
      refine ⟨row, rowsFor_sub row hrow, e, he, hlen, by rw [hit_eq], by rw [hit_eq],
        by rw [hit_eq], by rw [hit_eq], ?_⟩
      intro r hr hre
      subst hr
      exact rowsFor_rid hre row hrow
    · intro v
      exact filter_sortDesc v _
    · intro h0
      subst h0
      rw [rowsFor_nil report_id] at hemp
      simp at hemp

/-- Witness for the amended claim C5 on a two-row store: the query scores the
second row higher, so it ranks first and only one result is returned. -/
theorem claim_c5_amended_witness :
    (1 : Nat) ≤ 1 ∧
    ∃ res, search_report_chunks
        [⟨"r1", 1, strL "alpha", some [2]⟩, ⟨"r1", 2, strL "beta", some [3]⟩]
        ⟨[([1] : List Int).length], [1]⟩ none 1 = .ok res ∧
      res.length ≤ 1 ∧
      List.Pairwise (fun a b => b.score ≤ a.score) res ∧
      (∀ it ∈ res, ∃ row ∈
          [⟨"r1", 1, strL "alpha", some [2]⟩, ⟨"r1", 2, strL "beta", some [3]⟩],
        ∃ e, ChunkRow.embedding row = some e ∧
        e.length = ([1] : List Int).length ∧ it.score = dotL [1] e ∧
        it.content = row.content ∧
        it.report_id = row.report_id ∧ it.chunk_index = row.chunk_index ∧
        (∀ r, (none : Option String) = some r → r.isEmpty = false →
          row.report_id = r)) ∧
      (∀ v : Int,
        (sortDesc (scoreRows (rowsFor
            [⟨"r1", 1, strL "alpha", some [2]⟩, ⟨"r1", 2, strL "beta", some [3]⟩]
            none) [1])).filter (fun it => it.score == v) =
          (scoreRows (rowsFor
            [⟨"r1", 1, strL "alpha", some [2]⟩, ⟨"r1", 2, strL "beta", some [3]⟩]
            none) [1]).filter (fun it => it.score == v)) ∧
      (([⟨"r1", 1, strL "alpha", some [2]⟩, ⟨"r1", 2, strL "beta", some [3]⟩] :
          List ChunkRow) = [] → res = []) :=
  ⟨by decide,
   claim_c5_amended
     [⟨"r1", 1, strL "alpha", some [2]⟩, ⟨"r1", 2, strL "beta", some [3]⟩]
     [1] none 1 (by decide)⟩

/-- Claim C10. A query whose number of dimensions differs from 1 makes
search_report_chunks raise ValueError before touching the store: the result
is the error and is independent of the stored state. -/
theorem claim_c10_ndim_check (rows rows2 : List ChunkRow) (query_embedding : NDArr)
    (report_id : Option String) (top_k : Nat)
    (h : query_embedding.shape.length ≠ 1) :
    search_report_chunks rows query_embedding report_id top_k = .error .valueError ∧
    search_report_chunks rows query_embedding report_id top_k =
      search_report_chunks rows2 query_embedding report_id top_k := by
  unfold search_report_chunks
  rw [if_pos h, if_pos h]
  exact ⟨rfl, rfl⟩

/-- Witness for claim C10 with a two-dimensional query against two different
store states. -/
theorem claim_c10_ndim_check_witness :
    search_report_chunks [] ⟨[2, 2], [1, 0, 0, 1]⟩ none 5 = .error .valueError ∧
    search_report_chunks [] ⟨[2, 2], [1, 0, 0, 1]⟩ none 5 =
      search_report_chunks [⟨"r1", 1, strL "alpha", some [1]⟩]
        ⟨[2, 2], [1, 0, 0, 1]⟩ none 5 :=
  claim_c10_ndim_check [] [⟨"r1", 1, strL "alpha", some [1]⟩]
    ⟨[2, 2], [1, 0, 0, 1]⟩ none 5 (by decide)

/-- Claim C6. Saving always appends exactly the one report row and returns
that record built from the inputs; when the chunk list is non-empty and the
embedding step raises, no chunk row at all is inserted, and the record is
still returned. -/
theorem claim_c6_save (db : DBState)
    (embedder : List (List Char) → Option (List (List Int)))
    (report_id created_at ticker : String) (company_name : Option String)
    (mode : String) (report_markdown : List Char)
    (markdown_path pdf_path : Option String) :
    (save_report_record db embedder report_id created_at ticker company_name mode
        report_markdown markdown_path pdf_path).1.reports =
      db.reports ++ [(save_report_record db embedder report_id created_at ticker
        company_name mode report_markdown markdown_path pdf_path).2] ∧
    (save_report_record db embedder report_id created_at ticker company_name mode
        report_markdown markdown_path pdf_path).2 =
      ⟨report_id, ticker, company_name, mode, created_at,
        (summarise_markdown report_markdown).1, (summarise_markdown report_markdown).2,
        report_markdown, markdown_path, pdf_path⟩ ∧
    ((chunk_markdown report_markdown 1100 150 ≠ [] ∧
        embedder (chunk_markdown report_markdown 1100 150) = none) →
      (save_report_record db embedder report_id created_at ticker company_name mode
        report_markdown markdown_path pdf_path).1.report_chunks = db.report_chunks) := by
  refine ⟨rfl, rfl, ?_⟩
  rintro ⟨hne, hemb⟩
  have hch : (chunk_markdown report_markdown 1100 150).isEmpty = false := by
    cases hl : chunk_markdown report_markdown 1100 150 with
    | nil => exact absurd hl hne
    | cons a t => rfl
  unfold save_report_record
  simp [hch, hemb]

/-- Witness for claim C6 with an embedder that always raises: the report row
is stored, zero chunk rows are stored. -/
theorem claim_c6_save_witness :
    (save_report_record ⟨[], []⟩ (fun _ => none) "id1" "t1" "AAPL" none "team"
        (strL "hello analysis") none none).1.report_chunks = [] ∧
    (save_report_record ⟨[], []⟩ (fun _ => none) "id1" "t1" "AAPL" none "team"
        (strL "hello analysis") none none).1.reports =
      [(save_report_record ⟨[], []⟩ (fun _ => none) "id1" "t1" "AAPL" none "team"
        (strL "hello analysis") none none).2] :=
  ⟨(claim_c6_save ⟨[], []⟩ (fun _ => none) "id1" "t1" "AAPL" none "team"
      (strL "hello analysis") none none).2.2 ⟨by decide, rfl⟩,
   by
    have h := (claim_c6_save ⟨[], []⟩ (fun _ => none) "id1" "t1" "AAPL" none "team"
      (strL "hello analysis") none none).1
    simpa using h⟩

/-- Claim C8. When retrieval yields zero matching chunks, answer_question
returns the fixed insufficient-information reply with an empty evidence
list, and the generation agent is never invoked. -/
theorem claim_c8_no_matches (rows : List ChunkRow) (embedText : List Char → List Int)
    (agent : List Char → List Char) (question : List Char)
    (report_id : Option String) (top_k : Nat)
    (h : search_report_chunks rows
        ⟨[(embedText question).length], embedText question⟩ report_id top_k = .ok []) :
    answer_question rows embedText agent question report_id top_k =
      .ok ⟨NO_INFO_REPLY, [], false⟩ := by
  unfold answer_question
  rw [h]
  rfl

/-- Witness for claim C8: a chat query against an empty store returns the
fixed reply with no evidence and without calling the agent. -/
theorem claim_c8_no_matches_witness :
    answer_question [] (fun _ => [1]) (fun p => p) (strL "what is the outlook")
        none 5 = .ok ⟨NO_INFO_REPLY, [], false⟩ :=
  claim_c8_no_matches [] (fun _ => [1]) (fun p => p) (strL "what is the outlook")
    none 5 rfl
